import Mathlib

/-!
# gospider: task creation (`web/router/task/create_task.go`)

A shallow embedding of `CreateTask`, its status-listener goroutine and
`getTaskRuleAndConfig`.

* Go `int` / `int64` / `time.Duration` values are `Int`s, wrapped with `wrapInt64`
  wherever the source does arithmetic on them (64-bit platform); `uint64` values
  are `Nat`s obtained through `uint64`.
* The collaborators that live in other packages (`spider`, `model`, `common`,
  `core`, `regexp`) are the fields of `Env`; every call that can touch the
  database or the crawl engine threads an abstract world state `σ`.
* Every externally visible call made by `CreateTask` is recorded, in order, in a
  list of `Event`s; the HTTP answer is a `Response`.
* `logrus` calls have no effect on the result and are left out.
-/

namespace Gospider

/-- Go `error` values. -/
abbrev Err := String

/-- Go `time.Time`, as an abstract instant. -/
abbrev Time := Nat

/-- Two's-complement wrap of an integer into the `int64` range. -/
def wrapInt64 (x : Int) : Int := (x + 2 ^ 63) % 2 ^ 64 - 2 ^ 63

/-- Go conversion `uint64(x)` of a signed integer. -/
def uint64 (x : Int) : Nat := (x % 2 ^ 64).toNat

/-- Go `time.Millisecond`, a `time.Duration` counted in nanoseconds. -/
def time.Millisecond : Int := 1000000

/-- Go `time.Duration(x) * time.Millisecond` for an `int` value `x`: the conversion
to `int64` followed by the wrapping `int64` product. -/
def durationMillis (x : Int) : Int := wrapInt64 (wrapInt64 x * time.Millisecond)

/-! ## `strconv` and `strings` -/

/-- Value of a run of decimal digits. -/
def digitsValue (ds : List Char) : Nat :=
  ds.foldl (fun acc c => acc * 10 + (c.toNat - 48)) 0

/-- Go `strconv.Atoi`: optional sign, at least one decimal digit, nothing else,
and the value must fit the (64-bit) `int` type. -/
def strconv.Atoi (s : String) : Except Err Int :=
  let body : Bool × List Char :=
    match s.data with
    | '+' :: r => (false, r)
    | '-' :: r => (true, r)
    | r => (false, r)
  if body.2 = [] ∨ body.2.all Char.isDigit = false then
    .error "invalid syntax"
  else
    let v : Int := if body.1 then - (digitsValue body.2 : Int) else (digitsValue body.2 : Int)
    if v < - 2 ^ 63 ∨ 2 ^ 63 ≤ v then .error "value out of range" else .ok v

/-- Pieces of a character sequence between occurrences of `sep`. -/
def splitChars (sep : Char) : List Char → List (List Char)
  | [] => [[]]
  | c :: cs =>
    if c = sep then [] :: splitChars sep cs
    else
      match splitChars sep cs with
      | [] => [[c]]
      | p :: ps => (c :: p) :: ps

/-- Go `strings.Split(s, sep)` for a one-character separator: all pieces of `s`
between separators, in order; the empty string gives the single piece `""`. -/
def strings.Split (s : String) (sep : Char) : List String :=
  (splitChars sep s.data).map String.mk

/-- Character sequences joined with `sep` between neighbours. -/
def joinChars (sep : Char) : List (List Char) → List Char
  | [] => []
  | [p] => p
  | p :: q :: rest => p ++ sep :: joinChars sep (q :: rest)

/-- Go `strings.Join(elems, sep)` for a one-character separator. -/
def strings.Join (elems : List String) (sep : Char) : String :=
  String.mk (joinChars sep (elems.map String.data))

/-! ## Data model -/

/-- Go `common.TaskStatus`, an integer-valued status code. -/
abbrev common.TaskStatus := Int

/-- Go `model.Task`, with the fields this file reads or writes. -/
structure model.Task where
  ID : Nat
  TaskRuleName : String
  Status : common.TaskStatus
  Counts : Int
  CronSpec : String
  OptUserAgent : String
  OptMaxDepth : Int
  OptAllowedDomains : String
  OptURLFilters : String
  OptMaxBodySize : Int
  LimitEnable : Bool
  LimitDomainGlob : String
  LimitDelay : Int
  LimitRandomDelay : Int
  LimitParallelism : Int
  OutputType : String
  OutputSysDBID : Nat
  CreatedAt : Time
  deriving DecidableEq

/-- Go `model.SysDB`, with the fields this file reads. -/
structure model.SysDB where
  Host : String
  Port : Int
  User : String
  Password : String
  DBName : String
  deriving DecidableEq

/-- The two column names of `model.TaskDBSchema` that are passed to `Update`. -/
inductive model.TaskDBSchema where
  | Status
  | Counts
  deriving DecidableEq

/-- Go `CreateTaskReq`: the embedded `model.Task` and the sink id as a string. -/
structure CreateTaskReq where
  Task : model.Task
  OutputSysDBID : String
  deriving DecidableEq

/-- Go `CreateTaskResp`. -/
structure CreateTaskResp where
  ID : Nat
  CreateAt : Time
  deriving DecidableEq

/-- Go `*regexp.Regexp`: a compiled pattern, identified by its source text. -/
structure regexp.Regexp where
  expr : String
  deriving DecidableEq

/-- Go `spider.TaskRule`, with the fields this file reads. -/
structure spider.TaskRule where
  Name : String
  AllowURLRevisit : Bool
  IgnoreRobotsTxt : Bool
  ParseHTTPErrorResponse : Bool
  DisableCookies : Bool
  deriving DecidableEq

/-- Go `spider.Option`. -/
structure spider.Option where
  UserAgent : String
  MaxDepth : Int
  AllowedDomains : List String
  URLFilters : List regexp.Regexp
  AllowURLRevisit : Bool
  MaxBodySize : Int
  IgnoreRobotsTxt : Bool
  ParseHTTPErrorResponse : Bool
  DisableCookies : Bool
  deriving DecidableEq

/-- Go `spider.Limit`; `Delay` and `RandomDelay` are `time.Duration`s in nanoseconds. -/
structure spider.Limit where
  Enable : Bool
  DomainGlob : String
  Delay : Int
  RandomDelay : Int
  Parallelism : Int
  deriving DecidableEq

/-- Go `spider.MySQLConf`. -/
structure spider.MySQLConf where
  Host : String
  Port : Int
  User : String
  Password : String
  DBName : String
  deriving DecidableEq

/-- Go `spider.OutputConfig`; `Type_` is the Go field `Type`. -/
structure spider.OutputConfig where
  Type_ : String
  MySQLConf : spider.MySQLConf
  deriving DecidableEq

/-- Go `spider.TaskConfig`. -/
structure spider.TaskConfig where
  CronSpec : String
  Option : spider.Option
  Limit : spider.Limit
  OutputConfig : spider.OutputConfig
  deriving DecidableEq

/-- Go `spider.Task`, as built by `spider.NewTask(rule, config)`. -/
structure spider.Task where
  rule : spider.TaskRule
  config : spider.TaskConfig
  deriving DecidableEq

/-- Go `spider.NewTask`. -/
def spider.NewTask (rule : spider.TaskRule) (config : spider.TaskConfig) : spider.Task :=
  { rule := rule, config := config }

/-- Go `*spider.CronTask`: the handle returned by `spider.NewCronTask`. -/
structure spider.CronTask where
  handle : Nat
  deriving DecidableEq

/-- The collaborators of `create_task.go`, over a world state `σ` (database and
crawl engine). A call that reports a Go `error` returns `Except.error` or
`some err`. -/
structure Env (σ : Type) where
  /-- Constant `common.TaskStatusRunning`. -/
  TaskStatusRunning : common.TaskStatus
  /-- Constant `common.TaskStatusCompleted`. -/
  TaskStatusCompleted : common.TaskStatus
  /-- Function `spider.GetTaskRule(name)`. -/
  GetTaskRule : String → Except Err spider.TaskRule
  /-- Function `regexp.Compile(expr)`. -/
  regexpCompile : String → Except Err regexp.Regexp
  /-- Query `model.NewSysDBQuerySet(core.GetDB()).IDEq(id).One(&sdb)`. -/
  sysDBOne : Nat → σ → Except Err model.SysDB
  /-- Method `task.Create(core.GetDB())`; on success the in-memory record as the
  store left it (identity and timestamp filled in). -/
  taskCreate : model.Task → σ → Except Err model.Task × σ
  /-- Function `spider.Run(spiderTask, retCh)`. -/
  spiderRun : spider.Task → σ → Option Err × σ
  /-- Function `spider.NewCronTask(spiderTask, retCh)`. -/
  NewCronTask : spider.Task → σ → Except Err spider.CronTask × σ
  /-- Method `ct.Start()`. -/
  cronStart : spider.CronTask → σ → Option Err × σ
  /-- Method `task.Update(core.GetDB(), fields...)`. -/
  taskUpdate : model.Task → List model.TaskDBSchema → σ → Option Err × σ

/-! ## `getTaskRuleAndConfig` -/

/-- The loop `for _, v := range urlFilters` of `getTaskRuleAndConfig`: compiles
the pieces in order, appending to `urlFiltersReg`, and stops at the first piece
that does not compile. -/
def compileFilters {σ : Type} (env : Env σ) :
    List String → List regexp.Regexp → Except Err (List regexp.Regexp)
  | [], urlFiltersReg => .ok urlFiltersReg
  | v :: rest, urlFiltersReg =>
    match env.regexpCompile v with
    | .error err => .error err
    | .ok reg => compileFilters env rest (urlFiltersReg ++ [reg])

/-- Go `getTaskRuleAndConfig(req)`: the returned triple `(rule, config, err)`,
`none` standing for `nil`. -/
def getTaskRuleAndConfig {σ : Type} (env : Env σ) (req : CreateTaskReq) (w : σ) :
    Option spider.TaskRule × Option spider.TaskConfig × Option Err :=
  match env.GetTaskRule req.Task.TaskRuleName with
  | .error err => (none, none, some err)
  | .ok rule =>
    let optAllowedDomains : List String :=
      if req.Task.OptAllowedDomains ≠ "" then strings.Split req.Task.OptAllowedDomains ','
      else []
    let compiled : Except Err (List regexp.Regexp) :=
      if req.Task.OptURLFilters ≠ "" then
        compileFilters env (strings.Split req.Task.OptURLFilters ',') []
      else .ok []
    match compiled with
    | .error err => (none, none, some err)
    | .ok urlFiltersReg =>
      match env.sysDBOne req.Task.OutputSysDBID w with
      | .error err => (none, none, some err)
      | .ok sdb =>
        (some rule,
         some
          { CronSpec := req.Task.CronSpec
            Option :=
              { UserAgent := req.Task.OptUserAgent
                MaxDepth := req.Task.OptMaxDepth
                AllowedDomains := optAllowedDomains
                URLFilters := urlFiltersReg
                AllowURLRevisit := rule.AllowURLRevisit
                MaxBodySize := req.Task.OptMaxBodySize
                IgnoreRobotsTxt := rule.IgnoreRobotsTxt
                ParseHTTPErrorResponse := rule.ParseHTTPErrorResponse
                DisableCookies := rule.DisableCookies }
            Limit :=
              { Enable := req.Task.LimitEnable
                DomainGlob := req.Task.LimitDomainGlob
                Delay := durationMillis req.Task.LimitDelay
                RandomDelay := durationMillis req.Task.LimitRandomDelay
                Parallelism := req.Task.LimitParallelism }
            OutputConfig :=
              { Type_ := req.Task.OutputType
                MySQLConf :=
                  { Host := sdb.Host
                    Port := sdb.Port
                    User := sdb.User
                    Password := sdb.Password
                    DBName := sdb.DBName } } },
         none)

/-! ## `CreateTask` -/

/-- The calls `CreateTask` makes on the task store, the crawl engine and the
scheduler, and the start of the status-listener goroutine. -/
inductive Event where
  /-- Call `task.Create(core.GetDB())` on the given record. -/
  | taskCreate (task : model.Task)
  /-- Call `spider.Run(spiderTask, retCh)`. -/
  | spiderRun (spiderTask : spider.Task)
  /-- Call `spider.NewCronTask(spiderTask, retCh)`. -/
  | newCronTask (spiderTask : spider.Task)
  /-- Call `ct.Start()`. -/
  | cronStart (ct : spider.CronTask)
  /-- Statement `go func() { ... }()`, with the captured `task`. -/
  | goListener (task : model.Task)
  deriving DecidableEq

/-- What the handler writes to the `gin.Context`. -/
inductive Response where
  /-- Call `c.Data(code, "", nil)`. -/
  | data (code : Nat)
  /-- Call `c.JSON(code, &CreateTaskResp{...})`. -/
  | json (code : Nat) (body : CreateTaskResp)
  /-- Nothing written: dereferencing a nil `rule` or `config` aborted the handler. -/
  | nilDereference
  deriving DecidableEq

/-- Go `http.StatusOK`. -/
def http.StatusOK : Nat := 200

/-- Go `http.StatusBadRequest`. -/
def http.StatusBadRequest : Nat := 400

/-- Go `http.StatusInternalServerError`. -/
def http.StatusInternalServerError : Nat := 500

/-- Result of one run of `CreateTask`. -/
structure Outcome (σ : Type) where
  world : σ
  events : List Event
  response : Response

/-- The block `if task.CronSpec != "" { ... }` of `CreateTask`: the world after it
and the calls it made. Both failures are only logged. -/
def cronBlock {σ : Type} (env : Env σ) (task : model.Task) (spiderTask : spider.Task)
    (w : σ) : σ × List Event :=
  if task.CronSpec ≠ "" then
    match env.NewCronTask spiderTask w with
    | (.error _, w1) => (w1, [Event.newCronTask spiderTask])
    | (.ok ct, w1) =>
      match env.cronStart ct w1 with
      | (_, w2) => (w2, [Event.newCronTask spiderTask, Event.cronStart ct])
  else (w, [])

/-- The assignment `req.Task.OutputSysDBID = uint64(intID)` of `CreateTask`. -/
def setOutputSysDBID (req : CreateTaskReq) (intID : Int) : CreateTaskReq :=
  { req with Task := { req.Task with OutputSysDBID := uint64 intID } }

/-- The statements `task := req.Task; task.Status = common.TaskStatusRunning` of
`CreateTask`. -/
def runningTask {σ : Type} (env : Env σ) (req : CreateTaskReq) : model.Task :=
  { req.Task with Status := env.TaskStatusRunning }

/-- Go `CreateTask(c)`. `bound` is the result of `c.BindJSON(&req)`. -/
def CreateTask {σ : Type} (env : Env σ) (bound : Except Err CreateTaskReq) (w : σ) :
    Outcome σ :=
  match bound with
  | .error _ => { world := w, events := [], response := .data http.StatusBadRequest }
  | .ok req0 =>
    match strconv.Atoi req0.OutputSysDBID with
    | .error _ => { world := w, events := [], response := .data http.StatusBadRequest }
    | .ok intID =>
      let req : CreateTaskReq := setOutputSysDBID req0 intID
      match getTaskRuleAndConfig env req w with
      | (_, _, some _) =>
        { world := w, events := [], response := .data http.StatusInternalServerError }
      | (rule?, config?, none) =>
        let task : model.Task := runningTask env req
        match env.taskCreate task w with
        | (.error _, w1) =>
          { world := w1, events := [Event.taskCreate task],
            response := .data http.StatusInternalServerError }
        | (.ok task1, w1) =>
          match rule?, config? with
          | some rule, some config =>
            let spiderTask := spider.NewTask rule config
            match env.spiderRun spiderTask w1 with
            | (some _, w2) =>
              { world := w2, events := [Event.taskCreate task, Event.spiderRun spiderTask],
                response := .data http.StatusInternalServerError }
            | (none, w2) =>
              let cron := cronBlock env task1 spiderTask w2
              { world := cron.1,
                events :=
                  [Event.taskCreate task, Event.spiderRun spiderTask] ++ cron.2 ++
                    [Event.goListener task1],
                response :=
                  .json http.StatusOK { ID := task1.ID, CreateAt := task1.CreatedAt } }
          | _, _ =>
            { world := w1, events := [Event.taskCreate task], response := .nilDereference }

/-! ## The status listener -/

/-- One `task.Update` call of the listener: the record passed, the column names,
and the error it returned. -/
structure UpdateCall where
  task : model.Task
  fields : List model.TaskDBSchema
  err : Option Err
  deriving DecidableEq

/-- State of the listener goroutine after it consumed a sequence of signals. -/
structure ListenerRun (σ : Type) where
  /-- The captured `task` variable. -/
  task : model.Task
  world : σ
  /-- The `task.Update` calls issued, oldest first. -/
  updates : List UpdateCall
  /-- Whether the goroutine has returned; otherwise it waits on `retCh`. -/
  returned : Bool

/-- The assignments of one loop iteration: `task.Status = status` and, for a
completed run, `task.Counts += 1`. -/
def receive {σ : Type} (env : Env σ) (task : model.Task) (status : common.TaskStatus) :
    model.Task :=
  let task := { task with Status := status }
  if status = env.TaskStatusCompleted then { task with Counts := wrapInt64 (task.Counts + 1) }
  else task

/-- The goroutine `go func() { for { select { case status := <-retCh: ... } } }()`
run on the values received from `retCh`, in order. -/
def listener {σ : Type} (env : Env σ) :
    model.Task → List common.TaskStatus → σ → ListenerRun σ
  | task, [], w => { task := task, world := w, updates := [], returned := false }
  | task, status :: rest, w =>
    let task1 := receive env task status
    let fields := [model.TaskDBSchema.Status, model.TaskDBSchema.Counts]
    match env.taskUpdate task1 fields w with
    | (some err, w1) =>
      { task := task1, world := w1,
        updates := [{ task := task1, fields := fields, err := some err }], returned := true }
    | (none, w1) =>
      let run := listener env task1 rest w1
      { run with updates := { task := task1, fields := fields, err := none } :: run.updates }

/-- Modelled from the spec: the task store's `update(task, fields...)`, whose code
is not in this file, "persists a partial update restricted to the named fields
(status, count)". A call that returned an error persists nothing. -/
def applyUpdate (stored : model.Task) (call : UpdateCall) : model.Task :=
  match call.err with
  | some _ => stored
  | none =>
    let stored :=
      if model.TaskDBSchema.Status ∈ call.fields then { stored with Status := call.task.Status }
      else stored
    if model.TaskDBSchema.Counts ∈ call.fields then { stored with Counts := call.task.Counts }
    else stored

/-- The persisted record after a sequence of update calls on the created record. -/
def persisted (created : model.Task) (updates : List UpdateCall) : model.Task :=
  updates.foldl applyUpdate created

/-- Number of signals equal to `common.TaskStatusCompleted`. -/
def completedCount {σ : Type} (env : Env σ) (signals : List common.TaskStatus) : Nat :=
  signals.count env.TaskStatusCompleted

/-! ## A concrete environment -/

/-- World of the concrete environment: the id the store assigns next and the
number of `Update` calls it has received. -/
structure DemoWorld where
  nextID : Nat
  updateCalls : Nat
  deriving DecidableEq

/-- The rule named "default", with no special flags. -/
def defaultRule : spider.TaskRule :=
  { Name := "default", AllowURLRevisit := false, IgnoreRobotsTxt := false,
    ParseHTTPErrorResponse := false, DisableCookies := false }

/-- The rule named "lenient". -/
def lenientRule : spider.TaskRule :=
  { Name := "lenient", AllowURLRevisit := true, IgnoreRobotsTxt := true,
    ParseHTTPErrorResponse := false, DisableCookies := true }

/-- The sink record with id 7. -/
def demoSink : model.SysDB :=
  { Host := "127.0.0.1", Port := 3306, User := "root", Password := "pw", DBName := "spider" }

/-- A concrete environment: rules "default" and "lenient", sink 7, every pattern
but "[" compiles, the store assigns consecutive ids, the engine accepts a launch
unless the user agent is "reject", registration fails for the spec "bad", start
fails for the spec "nostart", and the store's `Update` fails on its call number
`failAt` (counting from 0). -/
def demoEnv (failAt : Option Nat) : Env DemoWorld :=
  { TaskStatusRunning := 1
    TaskStatusCompleted := 5
    GetTaskRule := fun name =>
      if name = "default" then .ok defaultRule
      else if name = "lenient" then .ok lenientRule
      else .error "task rule not found"
    regexpCompile := fun expr =>
      if expr = "[" then .error "missing closing ]" else .ok { expr := expr }
    sysDBOne := fun id _ => if id = 7 then .ok demoSink else .error "record not found"
    taskCreate := fun task w =>
      if task.TaskRuleName = "lenient" ∧ task.CronSpec = "full" then
        (.error "store is full", w)
      else
        (.ok { task with ID := w.nextID, CreatedAt := 1000 + w.nextID },
          { w with nextID := w.nextID + 1 })
    spiderRun := fun spiderTask w =>
      if spiderTask.config.Option.UserAgent = "reject" then (some "launch rejected", w)
      else (none, w)
    NewCronTask := fun spiderTask w =>
      if spiderTask.config.CronSpec = "bad" then (.error "bad cron spec", w)
      else (.ok { handle := 1 }, w)
    cronStart := fun _ w => (none, w)
    taskUpdate := fun _ _ w =>
      (if failAt = some w.updateCalls then some "update failed" else none,
        { w with updateCalls := w.updateCalls + 1 }) }

/-- The scenario request: rule "default", sink id "7", no domains, no filters,
limits off. -/
def demoTask : model.Task :=
  { ID := 0, TaskRuleName := "default", Status := 0, Counts := 0, CronSpec := "",
    OptUserAgent := "gospider", OptMaxDepth := 3, OptAllowedDomains := "",
    OptURLFilters := "", OptMaxBodySize := 0, LimitEnable := false, LimitDomainGlob := "",
    LimitDelay := 0, LimitRandomDelay := 0, LimitParallelism := 0, OutputType := "mysql",
    OutputSysDBID := 0, CreatedAt := 0 }

/-- The scenario request as bound from JSON. -/
def demoReq : CreateTaskReq := { Task := demoTask, OutputSysDBID := "7" }

/-- A request with two allowed domains and two URL filters. -/
def domainsReq : CreateTaskReq :=
  { Task := { demoTask with OptAllowedDomains := "a.com,b.org", OptURLFilters := "^/a,^/b" },
    OutputSysDBID := "7" }

/-- A request naming the rule "lenient". -/
def lenientReq : CreateTaskReq :=
  { Task := { demoTask with TaskRuleName := "lenient", OptUserAgent := "other",
                            LimitEnable := true, LimitDelay := 250, LimitRandomDelay := 40 },
    OutputSysDBID := "7" }

/-- A second request naming the rule "lenient", with other options. -/
def lenientReq2 : CreateTaskReq :=
  { Task := { demoTask with TaskRuleName := "lenient", OptMaxDepth := 9,
                            OptAllowedDomains := "c.net" },
    OutputSysDBID := "7" }

/-- A request whose delay in milliseconds is 9223372036855, an `int` value whose
product with 1000000 exceeds the largest `int64`. -/
def hugeDelayReq : CreateTaskReq :=
  { Task := { demoTask with LimitEnable := true, LimitDelay := 9223372036855,
                            LimitRandomDelay := 250 },
    OutputSysDBID := "7" }

/-- A request with the invalid URL filter "[" among three. -/
def badFilterReq : CreateTaskReq :=
  { Task := { demoTask with OptURLFilters := "^/a,[,^/b" }, OutputSysDBID := "7" }

/-- A request the store refuses to create. -/
def fullStoreReq : CreateTaskReq :=
  { Task := { demoTask with TaskRuleName := "lenient", CronSpec := "full" },
    OutputSysDBID := "7" }

/-- A request whose embedded task carries the status 5. -/
def statusReq : CreateTaskReq :=
  { Task := { demoTask with Status := 5 }, OutputSysDBID := "7" }

/-- A request the engine refuses to launch. -/
def rejectedReq : CreateTaskReq :=
  { Task := { demoTask with OptUserAgent := "reject", CronSpec := "@hourly" },
    OutputSysDBID := "7" }

/-- A request with a recurrence spec whose registration fails. -/
def badCronReq : CreateTaskReq :=
  { Task := { demoTask with CronSpec := "bad" }, OutputSysDBID := "7" }

/-- A request with a recurrence spec that registers and starts. -/
def cronReq : CreateTaskReq :=
  { Task := { demoTask with CronSpec := "@hourly" }, OutputSysDBID := "7" }

/-- A request whose embedded task carries a completion count of 5. -/
def countsReq : CreateTaskReq :=
  { Task := { demoTask with Counts := 5 }, OutputSysDBID := "7" }

/-- The record the listener of `countsReq` starts with in the concrete environment:
the request's task with status Running, sink id 7, and the assigned id and time. -/
def countsTask : model.Task :=
  { countsReq.Task with Status := 1, OutputSysDBID := 7, ID := 1, CreatedAt := 1001 }

/-- The concrete environment with one more sink record, stored under the largest
`uint64` id, 18446744073709551615. -/
def wideSinkEnv : Env DemoWorld :=
  { demoEnv none with
    sysDBOne := fun id _ =>
      if id = 7 ∨ id = 18446744073709551615 then .ok demoSink
      else .error "record not found" }

/-- The scenario request with the sink id "-1". -/
def negativeSinkReq : CreateTaskReq := { Task := demoTask, OutputSysDBID := "-1" }

/-- The initial world of the concrete environment. -/
def demoWorld : DemoWorld := { nextID := 1, updateCalls := 0 }

/-! ## Lemmas on the helpers -/

theorem splitChars_ne_nil (sep : Char) (l : List Char) : splitChars sep l ≠ [] := by
  induction l with
  | nil => simp [splitChars]
  | cons c cs ih =>
    unfold splitChars
    split
    · simp
    · split <;> simp

theorem joinChars_splitChars (sep : Char) (l : List Char) :
    joinChars sep (splitChars sep l) = l := by
  induction l with
  | nil => simp [splitChars, joinChars]
  | cons c cs ih =>
    unfold splitChars
    split
    · rename_i hc
      rcases hs : splitChars sep cs with _ | ⟨p, ps⟩
      · exact absurd hs (splitChars_ne_nil sep cs)
      · rw [hs] at ih
        simp [joinChars, ih, hc]
    · rcases hs : splitChars sep cs with _ | ⟨p, ps⟩
      · exact absurd hs (splitChars_ne_nil sep cs)
      · rw [hs] at ih
        cases ps with
        | nil => simpa [joinChars] using ih
        | cons q rest => simpa [joinChars] using ih

theorem splitChars_no_sep (sep : Char) (l : List Char) :
    ∀ p ∈ splitChars sep l, sep ∉ p := by
  induction l with
  | nil => simp [splitChars]
  | cons c cs ih =>
    unfold splitChars
    split
    · intro p hp
      rcases List.mem_cons.mp hp with h | h
      · simp [h]
      · exact ih p h
    · rename_i hc
      rcases hs : splitChars sep cs with _ | ⟨q, qs⟩
      · exact absurd hs (splitChars_ne_nil sep cs)
      · rw [hs] at ih
        intro p hp
        rcases List.mem_cons.mp hp with h | h
        · subst h
          intro hmem
          rcases List.mem_cons.mp hmem with h1 | h1
          · exact hc h1.symm
          · exact ih q (List.mem_cons_self _ _) h1
        · exact ih p (List.mem_cons_of_mem _ h)

theorem join_split (s : String) (sep : Char) :
    strings.Join (strings.Split s sep) sep = s := by
  simp [strings.Join, strings.Split, Function.comp_def, joinChars_splitChars]

theorem split_no_sep (s : String) (sep : Char) :
    ∀ d ∈ strings.Split s sep, sep ∉ d.data := by
  intro d hd
  simp only [strings.Split, List.mem_map] at hd
  obtain ⟨p, hp, rfl⟩ := hd
  exact splitChars_no_sep sep s.data p hp

theorem compileFilters_error_iff {σ : Type} (env : Env σ) (l : List String)
    (acc : List regexp.Regexp) :
    (∃ e, compileFilters env l acc = .error e) ↔
      ∃ v ∈ l, ∃ e, env.regexpCompile v = .error e := by
  induction l generalizing acc with
  | nil => simp [compileFilters]
  | cons v rest ih =>
    rcases hv : env.regexpCompile v with e | reg
    · simp [compileFilters, hv]
    · simp [compileFilters, hv, ih]

/-- The two possible shapes of the result of `getTaskRuleAndConfig`: an error with
neither rule nor config, or the resolved rule with a config built from it. -/
theorem getTaskRuleAndConfig_shape {σ : Type} (env : Env σ) (req : CreateTaskReq) (w : σ) :
    (∃ err, getTaskRuleAndConfig env req w = (none, none, some err)) ∨
    (∃ rule cfg, getTaskRuleAndConfig env req w = (some rule, some cfg, none) ∧
      env.GetTaskRule req.Task.TaskRuleName = .ok rule ∧
      cfg.Option.AllowedDomains =
        (if req.Task.OptAllowedDomains ≠ "" then strings.Split req.Task.OptAllowedDomains ','
         else []) ∧
      cfg.Option.AllowURLRevisit = rule.AllowURLRevisit ∧
      cfg.Option.IgnoreRobotsTxt = rule.IgnoreRobotsTxt ∧
      cfg.Option.ParseHTTPErrorResponse = rule.ParseHTTPErrorResponse ∧
      cfg.Option.DisableCookies = rule.DisableCookies ∧
      cfg.Limit.Delay = durationMillis req.Task.LimitDelay ∧
      cfg.Limit.RandomDelay = durationMillis req.Task.LimitRandomDelay) := by
  unfold getTaskRuleAndConfig
  rcases env.GetTaskRule req.Task.TaskRuleName with e | rule
  · exact Or.inl ⟨e, rfl⟩
  · dsimp only
    split
    · rename_i e _
      exact Or.inl ⟨e, rfl⟩
    · rcases env.sysDBOne req.Task.OutputSysDBID w with e | sdb
      · exact Or.inl ⟨e, rfl⟩
      · exact Or.inr ⟨rule, _, rfl, rfl, rfl, rfl, rfl, rfl, rfl, rfl, rfl⟩

theorem wrapInt64_of_range (x : Int) (hlo : - 2 ^ 63 ≤ x) (hhi : x < 2 ^ 63) :
    wrapInt64 x = x := by
  unfold wrapInt64
  rw [Int.emod_eq_of_lt (by omega) (by omega)]
  omega

theorem wrapInt64_emod (x : Int) : wrapInt64 x % 2 ^ 64 = x % 2 ^ 64 := by
  unfold wrapInt64
  omega

theorem wrapInt64_range (x : Int) : - 2 ^ 63 ≤ wrapInt64 x ∧ wrapInt64 x < 2 ^ 63 := by
  unfold wrapInt64
  omega

theorem durationMillis_emod (x : Int) :
    durationMillis x % 2 ^ 64 = (x * 1000000) % 2 ^ 64 := by
  unfold durationMillis time.Millisecond
  rw [wrapInt64_emod, Int.mul_emod, wrapInt64_emod, ← Int.mul_emod]

theorem durationMillis_of_range (x : Int) (hlo : - 2 ^ 63 ≤ x * 1000000)
    (hhi : x * 1000000 < 2 ^ 63) : durationMillis x = x * 1000000 := by
  unfold durationMillis time.Millisecond
  rw [wrapInt64_of_range x (by omega) (by omega), wrapInt64_of_range _ hlo hhi]

/-! ## `getTaskRuleAndConfig`: claims C1, C3, C4, C5 -/

/-- C1: `getTaskRuleAndConfig` returns an error exactly when the rule lookup fails,
or `OptURLFilters` is non-empty and one of its comma-separated pieces does not
compile, or the sink lookup by `OutputSysDBID` fails; and whenever it returns an
error, both the rule and the config it returns are nil. -/
theorem getTaskRuleAndConfig_fails_iff {σ : Type} (env : Env σ) (req : CreateTaskReq)
    (w : σ) :
    ((getTaskRuleAndConfig env req w).2.2 ≠ none ↔
      ((∃ e, env.GetTaskRule req.Task.TaskRuleName = .error e) ∨
       (req.Task.OptURLFilters ≠ "" ∧
          ∃ v ∈ strings.Split req.Task.OptURLFilters ',',
            ∃ e, env.regexpCompile v = .error e) ∨
       (∃ e, env.sysDBOne req.Task.OutputSysDBID w = .error e))) ∧
    ((getTaskRuleAndConfig env req w).2.2 ≠ none →
      (getTaskRuleAndConfig env req w).1 = none ∧
      (getTaskRuleAndConfig env req w).2.1 = none) ∧
    ((getTaskRuleAndConfig env req w).2.2 = none →
      (getTaskRuleAndConfig env req w).1 ≠ none ∧
      (getTaskRuleAndConfig env req w).2.1 ≠ none) := by
  refine ⟨?_, ?_, ?_⟩
  · unfold getTaskRuleAndConfig
    rcases env.GetTaskRule req.Task.TaskRuleName with e | rule
    · simp
    · dsimp only
      by_cases hf : req.Task.OptURLFilters = ""
      · rcases env.sysDBOne req.Task.OutputSysDBID w with e | sdb <;> simp [hf]
      · rcases hc : compileFilters env (strings.Split req.Task.OptURLFilters ',') []
          with e | regs
        · have hex := (compileFilters_error_iff env _ []).mp ⟨e, hc⟩
          simp only [ne_eq, hf, not_false_eq_true, if_true, true_and]
          simp [hex]
        · have hno : ¬ ∃ v ∈ strings.Split req.Task.OptURLFilters ',',
              ∃ e, env.regexpCompile v = .error e := by
            intro hex
            obtain ⟨e, he⟩ := (compileFilters_error_iff env _ []).mpr hex
            rw [hc] at he
            cases he
          simp only [ne_eq, hf, not_false_eq_true, if_true, true_and]
          rcases env.sysDBOne req.Task.OutputSysDBID w with e | sdb <;> simp [hno]
  · intro h
    rcases getTaskRuleAndConfig_shape env req w with ⟨err, he⟩ | ⟨rule, cfg, he, _⟩
    · simp [he]
    · simp [he] at h
  · intro h
    rcases getTaskRuleAndConfig_shape env req w with ⟨err, he⟩ | ⟨rule, cfg, he, _⟩
    · simp [he] at h
    · simp [he]

/-- C3: when `getTaskRuleAndConfig` succeeds, `AllowedDomains` is empty for an empty
`OptAllowedDomains`, and otherwise it is the sequence of comma-separated pieces of
`OptAllowedDomains` in order: no piece holds a comma and joining the pieces with
"," gives `OptAllowedDomains` back. -/
theorem allowedDomains_split {σ : Type} (env : Env σ) (req : CreateTaskReq) (w : σ)
    (cfg : spider.TaskConfig) (h : (getTaskRuleAndConfig env req w).2.1 = some cfg) :
    (req.Task.OptAllowedDomains = "" → cfg.Option.AllowedDomains = []) ∧
    (req.Task.OptAllowedDomains ≠ "" →
      cfg.Option.AllowedDomains = strings.Split req.Task.OptAllowedDomains ',' ∧
      strings.Join cfg.Option.AllowedDomains ',' = req.Task.OptAllowedDomains ∧
      ∀ d ∈ cfg.Option.AllowedDomains, ',' ∉ d.data) := by
  rcases getTaskRuleAndConfig_shape env req w with ⟨err, he⟩ | ⟨rule, cfg0, he, _, hd, _⟩
  · simp [he] at h
  · rw [he] at h
    obtain rfl : cfg0 = cfg := by simpa using h
    refine ⟨fun hempty => by simp [hd, hempty], fun hne => ?_⟩
    have hsplit : cfg0.Option.AllowedDomains = strings.Split req.Task.OptAllowedDomains ',' := by
      simp [hd, hne]
    refine ⟨hsplit, ?_, ?_⟩
    · rw [hsplit]
      exact join_split _ _
    · rw [hsplit]
      exact split_no_sep _ _

/-- Witness for C3: the request with domains "a.com,b.org" gets exactly the two
pieces. -/
theorem allowedDomains_split_witness :
    ∃ cfg, (getTaskRuleAndConfig (demoEnv none) (setOutputSysDBID domainsReq 7)
        demoWorld).2.1 = some cfg ∧
      cfg.Option.AllowedDomains = ["a.com", "b.org"] ∧
      strings.Join cfg.Option.AllowedDomains ',' = "a.com,b.org" :=
  ⟨_, rfl,
    ((allowedDomains_split (demoEnv none) (setOutputSysDBID domainsReq 7) demoWorld _
      rfl).2 (by decide)).1.trans (by decide),
    ((allowedDomains_split (demoEnv none) (setOutputSysDBID domainsReq 7) demoWorld _
      rfl).2 (by decide)).2.1⟩

/-- C4: when `getTaskRuleAndConfig` succeeds, the four behaviour flags of the config
are those of the rule resolved from `TaskRuleName`; so two successful requests
that name the same rule get the same four flags, whatever else they hold. -/
theorem behaviour_flags_from_rule {σ : Type} (env : Env σ) (req1 req2 : CreateTaskReq)
    (w1 w2 : σ) (cfg1 cfg2 : spider.TaskConfig)
    (h1 : (getTaskRuleAndConfig env req1 w1).2.1 = some cfg1)
    (h2 : (getTaskRuleAndConfig env req2 w2).2.1 = some cfg2)
    (hname : req1.Task.TaskRuleName = req2.Task.TaskRuleName) :
    (∃ rule, env.GetTaskRule req1.Task.TaskRuleName = .ok rule ∧
      (getTaskRuleAndConfig env req1 w1).1 = some rule ∧
      cfg1.Option.AllowURLRevisit = rule.AllowURLRevisit ∧
      cfg1.Option.IgnoreRobotsTxt = rule.IgnoreRobotsTxt ∧
      cfg1.Option.ParseHTTPErrorResponse = rule.ParseHTTPErrorResponse ∧
      cfg1.Option.DisableCookies = rule.DisableCookies) ∧
    cfg1.Option.AllowURLRevisit = cfg2.Option.AllowURLRevisit ∧
    cfg1.Option.IgnoreRobotsTxt = cfg2.Option.IgnoreRobotsTxt ∧
    cfg1.Option.ParseHTTPErrorResponse = cfg2.Option.ParseHTTPErrorResponse ∧
    cfg1.Option.DisableCookies = cfg2.Option.DisableCookies := by
  rcases getTaskRuleAndConfig_shape env req1 w1 with
    ⟨err, he⟩ | ⟨rule1, c1, he1, hr1, _, ha1, hb1, hc1, hd1, _⟩
  · simp [he] at h1
  rcases getTaskRuleAndConfig_shape env req2 w2 with
    ⟨err, he⟩ | ⟨rule2, c2, he2, hr2, _, ha2, hb2, hc2, hd2, _⟩
  · simp [he] at h2
  rw [he1] at h1
  rw [he2] at h2
  obtain rfl : c1 = cfg1 := by simpa using h1
  obtain rfl : c2 = cfg2 := by simpa using h2
  have hrule : rule1 = rule2 := by
    rw [hname, hr2] at hr1
    cases hr1
    rfl
  subst hrule
  refine ⟨⟨rule1, hr1, by rw [he1], ha1, hb1, hc1, hd1⟩, ?_, ?_, ?_, ?_⟩
  · rw [ha1, ha2]
  · rw [hb1, hb2]
  · rw [hc1, hc2]
  · rw [hd1, hd2]

/-- Witness for C4: two different requests naming the rule "lenient". -/
theorem behaviour_flags_from_rule_witness :
    ∃ cfg1 cfg2,
      (getTaskRuleAndConfig (demoEnv none) (setOutputSysDBID lenientReq 7)
        demoWorld).2.1 = some cfg1 ∧
      (getTaskRuleAndConfig (demoEnv none) (setOutputSysDBID lenientReq2 7)
        demoWorld).2.1 = some cfg2 ∧
      cfg1 ≠ cfg2 ∧
      cfg1.Option.AllowURLRevisit = cfg2.Option.AllowURLRevisit ∧
      cfg1.Option.IgnoreRobotsTxt = cfg2.Option.IgnoreRobotsTxt ∧
      cfg1.Option.ParseHTTPErrorResponse = cfg2.Option.ParseHTTPErrorResponse ∧
      cfg1.Option.DisableCookies = cfg2.Option.DisableCookies :=
  ⟨_, _, rfl, rfl, by decide,
    (behaviour_flags_from_rule (demoEnv none) (setOutputSysDBID lenientReq 7)
      (setOutputSysDBID lenientReq2 7) demoWorld demoWorld _ _ rfl rfl rfl).2⟩

/-- C5, counterexample: for the delay of 9223372036855 milliseconds assembly
succeeds and `Limit.Delay` is -9223372036854551616 nanoseconds, not the input
multiplied by 1000000. -/
theorem limit_delay_overflow :
    ∃ cfg, (getTaskRuleAndConfig (demoEnv none) (setOutputSysDBID hugeDelayReq 7)
        demoWorld).2.1 = some cfg ∧
      (setOutputSysDBID hugeDelayReq 7).Task.LimitDelay = 9223372036855 ∧
      cfg.Limit.Delay = -9223372036854551616 ∧
      cfg.Limit.Delay ≠ (setOutputSysDBID hugeDelayReq 7).Task.LimitDelay * 1000000 :=
  ⟨_, rfl, rfl, by decide, by decide⟩

/-- C5, amended: when `getTaskRuleAndConfig` succeeds, `Limit.Delay` and
`Limit.RandomDelay` are `int64` values congruent modulo 2^64 to `LimitDelay` and
`LimitRandomDelay` multiplied by 1000000, and each equals that product whenever
the product lies in the `int64` range. -/
theorem limit_delays_millis {σ : Type} (env : Env σ) (req : CreateTaskReq) (w : σ)
    (cfg : spider.TaskConfig) (h : (getTaskRuleAndConfig env req w).2.1 = some cfg) :
    (cfg.Limit.Delay % 2 ^ 64 = (req.Task.LimitDelay * 1000000) % 2 ^ 64 ∧
      - 2 ^ 63 ≤ cfg.Limit.Delay ∧ cfg.Limit.Delay < 2 ^ 63) ∧
    (cfg.Limit.RandomDelay % 2 ^ 64 = (req.Task.LimitRandomDelay * 1000000) % 2 ^ 64 ∧
      - 2 ^ 63 ≤ cfg.Limit.RandomDelay ∧ cfg.Limit.RandomDelay < 2 ^ 63) ∧
    (- 2 ^ 63 ≤ req.Task.LimitDelay * 1000000 → req.Task.LimitDelay * 1000000 < 2 ^ 63 →
      cfg.Limit.Delay = req.Task.LimitDelay * 1000000) ∧
    (- 2 ^ 63 ≤ req.Task.LimitRandomDelay * 1000000 →
      req.Task.LimitRandomDelay * 1000000 < 2 ^ 63 →
      cfg.Limit.RandomDelay = req.Task.LimitRandomDelay * 1000000) := by
  rcases getTaskRuleAndConfig_shape env req w with
    ⟨err, he⟩ | ⟨rule, cfg0, he, _, _, _, _, _, _, hdelay, hrandom⟩
  · simp [he] at h
  · rw [he] at h
    obtain rfl : cfg0 = cfg := by simpa using h
    rw [hdelay, hrandom]
    refine ⟨⟨durationMillis_emod _, ?_, ?_⟩, ⟨durationMillis_emod _, ?_, ?_⟩,
      durationMillis_of_range _, durationMillis_of_range _⟩
    · exact (wrapInt64_range _).1
    · exact (wrapInt64_range _).2
    · exact (wrapInt64_range _).1
    · exact (wrapInt64_range _).2

/-- Witness for C5 (amended): delays of 250 and 40 milliseconds. -/
theorem limit_delays_millis_witness :
    ∃ cfg, (getTaskRuleAndConfig (demoEnv none) (setOutputSysDBID lenientReq 7)
        demoWorld).2.1 = some cfg ∧
      cfg.Limit.Delay = 250 * 1000000 ∧ cfg.Limit.RandomDelay = 40 * 1000000 :=
  ⟨_, rfl,
    (limit_delays_millis (demoEnv none) (setOutputSysDBID lenientReq 7) demoWorld _
      rfl).2.2.1 (by decide) (by decide),
    (limit_delays_millis (demoEnv none) (setOutputSysDBID lenientReq 7) demoWorld _
      rfl).2.2.2 (by decide) (by decide)⟩

/-! ## Unfolding `CreateTask` -/

theorem atoi_range (s : String) (v : Int) (h : strconv.Atoi s = .ok v) :
    - 2 ^ 63 ≤ v ∧ v < 2 ^ 63 := by
  simp only [strconv.Atoi] at h
  split_ifs at h with h1 h2 h3
  · cases h
    omega
  · cases h
    omega

theorem createTask_create_failed {σ : Type} (env : Env σ) (req0 : CreateTaskReq) (w : σ)
    (intID : Int) (rule : spider.TaskRule) (cfg : spider.TaskConfig) (e : Err) (w1 : σ)
    (hid : strconv.Atoi req0.OutputSysDBID = .ok intID)
    (he : getTaskRuleAndConfig env (setOutputSysDBID req0 intID) w = (some rule, some cfg, none))
    (hc : env.taskCreate (runningTask env (setOutputSysDBID req0 intID)) w = (.error e, w1)) :
    CreateTask env (.ok req0) w =
      { world := w1
        events := [Event.taskCreate (runningTask env (setOutputSysDBID req0 intID))]
        response := .data http.StatusInternalServerError } := by
  simp [CreateTask, hid, he, hc]

theorem createTask_launch_failed {σ : Type} (env : Env σ) (req0 : CreateTaskReq) (w : σ)
    (intID : Int) (rule : spider.TaskRule) (cfg : spider.TaskConfig) (task1 : model.Task)
    (w1 : σ) (e : Err) (w2 : σ)
    (hid : strconv.Atoi req0.OutputSysDBID = .ok intID)
    (he : getTaskRuleAndConfig env (setOutputSysDBID req0 intID) w = (some rule, some cfg, none))
    (hc : env.taskCreate (runningTask env (setOutputSysDBID req0 intID)) w = (.ok task1, w1))
    (hr : env.spiderRun (spider.NewTask rule cfg) w1 = (some e, w2)) :
    CreateTask env (.ok req0) w =
      { world := w2
        events := [Event.taskCreate (runningTask env (setOutputSysDBID req0 intID)),
          Event.spiderRun (spider.NewTask rule cfg)]
        response := .data http.StatusInternalServerError } := by
  simp [CreateTask, hid, he, hc, hr]

theorem createTask_launched {σ : Type} (env : Env σ) (req0 : CreateTaskReq) (w : σ)
    (intID : Int) (rule : spider.TaskRule) (cfg : spider.TaskConfig) (task1 : model.Task)
    (w1 w2 : σ)
    (hid : strconv.Atoi req0.OutputSysDBID = .ok intID)
    (he : getTaskRuleAndConfig env (setOutputSysDBID req0 intID) w = (some rule, some cfg, none))
    (hc : env.taskCreate (runningTask env (setOutputSysDBID req0 intID)) w = (.ok task1, w1))
    (hr : env.spiderRun (spider.NewTask rule cfg) w1 = (none, w2)) :
    CreateTask env (.ok req0) w =
      { world := (cronBlock env task1 (spider.NewTask rule cfg) w2).1
        events :=
          [Event.taskCreate (runningTask env (setOutputSysDBID req0 intID)),
            Event.spiderRun (spider.NewTask rule cfg)] ++
            (cronBlock env task1 (spider.NewTask rule cfg) w2).2 ++ [Event.goListener task1]
        response := .json http.StatusOK { ID := task1.ID, CreateAt := task1.CreatedAt } } := by
  simp [CreateTask, hid, he, hc, hr]

theorem cronBlock_no_create {σ : Type} (env : Env σ) (task : model.Task)
    (spiderTask : spider.Task) (w : σ) (t : model.Task) :
    Event.taskCreate t ∉ (cronBlock env task spiderTask w).2 := by
  unfold cronBlock
  split
  · split
    · simp
    · split
      simp
  · simp

/-! ## `CreateTask`: claims C2, C6, C9, C10 -/

/-- C2: when config assembly fails, `CreateTask` makes no call at all (no create, no
launch, no registration, no listener) and answers with the bare status 500; when
assembly succeeds and the task-store create fails, the create is its only call
(no launch, no registration, no listener) and it answers with the bare status
500. Neither answer carries a task summary. -/
theorem createTask_aborts {σ : Type} (env : Env σ) (req0 : CreateTaskReq) (w : σ)
    (intID : Int) (hid : strconv.Atoi req0.OutputSysDBID = .ok intID) :
    ((getTaskRuleAndConfig env (setOutputSysDBID req0 intID) w).2.2 ≠ none →
      (CreateTask env (.ok req0) w).events = [] ∧
      (CreateTask env (.ok req0) w).response = .data http.StatusInternalServerError ∧
      (CreateTask env (.ok req0) w).world = w) ∧
    ((getTaskRuleAndConfig env (setOutputSysDBID req0 intID) w).2.2 = none →
      (∃ e, (env.taskCreate (runningTask env (setOutputSysDBID req0 intID)) w).1 =
        .error e) →
      (CreateTask env (.ok req0) w).events =
        [Event.taskCreate (runningTask env (setOutputSysDBID req0 intID))] ∧
      (CreateTask env (.ok req0) w).response = .data http.StatusInternalServerError) := by
  constructor
  · intro hfail
    rcases getTaskRuleAndConfig_shape env (setOutputSysDBID req0 intID) w with
      ⟨err, he⟩ | ⟨rule, cfg, he, _⟩
    · simp [CreateTask, hid, he]
    · simp [he] at hfail
  · intro hok hcreate
    rcases getTaskRuleAndConfig_shape env (setOutputSysDBID req0 intID) w with
      ⟨err, he⟩ | ⟨rule, cfg, he, _⟩
    · simp [he] at hok
    · obtain ⟨e, hcreate⟩ := hcreate
      rcases hc : env.taskCreate (runningTask env (setOutputSysDBID req0 intID)) w with
        ⟨res, w1⟩
      rw [hc] at hcreate
      simp only at hcreate
      subst hcreate
      simp [CreateTask, hid, he, hc]

/-- Witness for C2: a request with the invalid filter "[" and a request the store
refuses. -/
theorem createTask_aborts_witness :
    ((CreateTask (demoEnv none) (.ok badFilterReq) demoWorld).events = [] ∧
      (CreateTask (demoEnv none) (.ok badFilterReq) demoWorld).response = .data 500 ∧
      (CreateTask (demoEnv none) (.ok badFilterReq) demoWorld).world = demoWorld) ∧
    ((CreateTask (demoEnv none) (.ok fullStoreReq) demoWorld).events =
        [Event.taskCreate (runningTask (demoEnv none) (setOutputSysDBID fullStoreReq 7))] ∧
      (CreateTask (demoEnv none) (.ok fullStoreReq) demoWorld).response = .data 500) :=
  ⟨(createTask_aborts (demoEnv none) badFilterReq demoWorld 7 rfl).1 (by decide),
    (createTask_aborts (demoEnv none) fullStoreReq demoWorld 7 rfl).2 (by decide)
      ⟨"store is full", rfl⟩⟩

/-- C6, counterexample: the sink id "-1" parses to -1, assembly succeeds in an
environment that has a sink under the id 18446744073709551615, and the record
handed to the task store's create carries `OutputSysDBID = 18446744073709551615`,
which is not the parsed sink id. -/
theorem created_record_negative_sink_id :
    strconv.Atoi negativeSinkReq.OutputSysDBID = .ok (-1) ∧
    (getTaskRuleAndConfig wideSinkEnv (setOutputSysDBID negativeSinkReq (-1))
      demoWorld).2.2 = none ∧
    (CreateTask wideSinkEnv (.ok negativeSinkReq) demoWorld).events.head? =
      some (Event.taskCreate
        { negativeSinkReq.Task with OutputSysDBID := 18446744073709551615, Status := 1 }) ∧
    ((18446744073709551615 : Nat) : Int) ≠ -1 :=
  ⟨rfl, by decide, by decide, by decide⟩

/-- C6, amended: for a request that reaches task creation (the sink id parses and
assembly succeeds), the first call of `CreateTask` is the task-store create, the
record handed to it has status Running whatever status the request carried, its
`OutputSysDBID` is the parsed sink id converted to `uint64` (the id reduced
modulo 2^64: the id itself when it is non-negative, the id plus 2^64 when it is
negative), every other field is that of the request's task, and no other record
is ever handed to create. -/
theorem created_record_running {σ : Type} (env : Env σ) (req0 : CreateTaskReq) (w : σ)
    (intID : Int) (hid : strconv.Atoi req0.OutputSysDBID = .ok intID)
    (hok : (getTaskRuleAndConfig env (setOutputSysDBID req0 intID) w).2.2 = none) :
    (CreateTask env (.ok req0) w).events.head? =
      some (Event.taskCreate
        { req0.Task with OutputSysDBID := uint64 intID, Status := env.TaskStatusRunning }) ∧
    (∀ t, Event.taskCreate t ∈ (CreateTask env (.ok req0) w).events →
      t = { req0.Task with OutputSysDBID := uint64 intID, Status := env.TaskStatusRunning }) ∧
    (((uint64 intID : Nat) : Int) = intID % 2 ^ 64 ∧
      (0 ≤ intID → ((uint64 intID : Nat) : Int) = intID) ∧
      (intID < 0 → ((uint64 intID : Nat) : Int) = intID + 2 ^ 64)) := by
  have huint : ((uint64 intID : Nat) : Int) = intID % 2 ^ 64 ∧
      (0 ≤ intID → ((uint64 intID : Nat) : Int) = intID) ∧
      (intID < 0 → ((uint64 intID : Nat) : Int) = intID + 2 ^ 64) := by
    have hrange := atoi_range _ _ hid
    have hcast : ((uint64 intID : Nat) : Int) = intID % 2 ^ 64 := by
      unfold uint64
      exact Int.toNat_of_nonneg (Int.emod_nonneg _ (by norm_num))
    refine ⟨hcast, fun hnn => ?_, fun hneg => ?_⟩
    · rw [hcast]
      omega
    · rw [hcast]
      omega
  have hrec : runningTask env (setOutputSysDBID req0 intID) =
      { req0.Task with OutputSysDBID := uint64 intID, Status := env.TaskStatusRunning } := rfl
  rw [← hrec]
  rcases getTaskRuleAndConfig_shape env (setOutputSysDBID req0 intID) w with
    ⟨err, he⟩ | ⟨rule, cfg, he, _⟩
  · simp [he] at hok
  · rcases hc : env.taskCreate (runningTask env (setOutputSysDBID req0 intID)) w with
      ⟨res, w1⟩
    rcases res with e | task1
    · rw [createTask_create_failed env req0 w intID rule cfg e w1 hid he hc]
      exact ⟨by simp, by simp, huint⟩
    · rcases hr : env.spiderRun (spider.NewTask rule cfg) w1 with ⟨err, w2⟩
      rcases err with _ | e
      · rw [createTask_launched env req0 w intID rule cfg task1 w1 w2 hid he hc hr]
        refine ⟨by simp, ?_, huint⟩
        intro t ht
        simp only [List.mem_append, List.mem_cons, List.mem_singleton, Event.taskCreate.injEq,
          List.not_mem_nil, or_false, false_or, reduceCtorEq] at ht
        rcases ht with ht | ht
        · exact ht
        · exact absurd ht (cronBlock_no_create env task1 _ w2 t)
      · rw [createTask_launch_failed env req0 w intID rule cfg task1 w1 e w2 hid he hc hr]
        exact ⟨by simp, by simp, huint⟩

/-- Witness for C6 (amended): a request carrying the status 5 is created with the
status Running (1 in the concrete environment) and the sink id 7; for the sink
id "-1" the converted id is -1 + 2^64. -/
theorem created_record_running_witness :
    ((CreateTask (demoEnv none) (.ok statusReq) demoWorld).events.head? =
      some (Event.taskCreate
        { statusReq.Task with OutputSysDBID := 7, Status := 1 }) ∧
    statusReq.Task.Status = 5) ∧
    ((uint64 (-1) : Nat) : Int) = -1 + 2 ^ 64 :=
  ⟨⟨(created_record_running (demoEnv none) statusReq demoWorld 7 rfl (by decide)).1,
    by decide⟩,
    (created_record_running wideSinkEnv negativeSinkReq demoWorld (-1) rfl
      (by decide)).2.2.2.2 (by decide)⟩

/-- C9: when assembly, create and the first launch succeed, registration
(`spider.NewCronTask`) is attempted exactly when the created task's `CronSpec` is
non-empty, `Start` is attempted exactly when registration succeeded, and in every
case (also when registration fails, and whatever `Start` returns) the create is
the only task-store call, the listener is started last, and the answer is the
summary with the created task's ID and creation time. -/
theorem recurrence_failure_keeps_task {σ : Type} (env : Env σ) (req0 : CreateTaskReq)
    (w : σ) (intID : Int) (rule : spider.TaskRule) (cfg : spider.TaskConfig)
    (task1 : model.Task) (w1 w2 : σ)
    (hid : strconv.Atoi req0.OutputSysDBID = .ok intID)
    (he : getTaskRuleAndConfig env (setOutputSysDBID req0 intID) w = (some rule, some cfg, none))
    (hc : env.taskCreate (runningTask env (setOutputSysDBID req0 intID)) w = (.ok task1, w1))
    (hr : env.spiderRun (spider.NewTask rule cfg) w1 = (none, w2)) :
    (task1.CronSpec = "" →
      (CreateTask env (.ok req0) w).events =
        [Event.taskCreate (runningTask env (setOutputSysDBID req0 intID)),
          Event.spiderRun (spider.NewTask rule cfg), Event.goListener task1]) ∧
    (task1.CronSpec ≠ "" → ∀ e w3,
      env.NewCronTask (spider.NewTask rule cfg) w2 = (.error e, w3) →
      (CreateTask env (.ok req0) w).events =
        [Event.taskCreate (runningTask env (setOutputSysDBID req0 intID)),
          Event.spiderRun (spider.NewTask rule cfg),
          Event.newCronTask (spider.NewTask rule cfg), Event.goListener task1]) ∧
    (task1.CronSpec ≠ "" → ∀ ct w3,
      env.NewCronTask (spider.NewTask rule cfg) w2 = (.ok ct, w3) →
      (CreateTask env (.ok req0) w).events =
        [Event.taskCreate (runningTask env (setOutputSysDBID req0 intID)),
          Event.spiderRun (spider.NewTask rule cfg),
          Event.newCronTask (spider.NewTask rule cfg), Event.cronStart ct,
          Event.goListener task1]) ∧
    (CreateTask env (.ok req0) w).response =
      .json http.StatusOK { ID := task1.ID, CreateAt := task1.CreatedAt } := by
  rw [createTask_launched env req0 w intID rule cfg task1 w1 w2 hid he hc hr]
  refine ⟨?_, ?_, ?_, rfl⟩
  · intro hempty
    simp [cronBlock, hempty]
  · intro hne e w3 hn
    simp [cronBlock, hne, hn]
  · intro hne ct w3 hn
    simp [cronBlock, hne, hn]

/-- Witness for C9: a request whose registration fails and a request whose
registration and start succeed both start the listener last, and the first gets
the summary. -/
theorem recurrence_failure_keeps_task_witness :
    (∃ spiderTask task1,
      (CreateTask (demoEnv none) (.ok badCronReq) demoWorld).events =
        [Event.taskCreate (runningTask (demoEnv none) (setOutputSysDBID badCronReq 7)),
          Event.spiderRun spiderTask, Event.newCronTask spiderTask,
          Event.goListener task1] ∧
      (CreateTask (demoEnv none) (.ok badCronReq) demoWorld).response =
        .json http.StatusOK { ID := task1.ID, CreateAt := task1.CreatedAt }) ∧
    (∃ spiderTask task1,
      (CreateTask (demoEnv none) (.ok cronReq) demoWorld).events =
        [Event.taskCreate (runningTask (demoEnv none) (setOutputSysDBID cronReq 7)),
          Event.spiderRun spiderTask, Event.newCronTask spiderTask,
          Event.cronStart { handle := 1 }, Event.goListener task1]) :=
  ⟨⟨_, _,
    (recurrence_failure_keeps_task (demoEnv none) badCronReq demoWorld 7 _ _ _ _ _
        rfl rfl rfl rfl).2.1 (by decide) "bad cron spec" _ rfl,
    (recurrence_failure_keeps_task (demoEnv none) badCronReq demoWorld 7 _ _ _ _ _
        rfl rfl rfl rfl).2.2.2⟩,
    ⟨_, _,
    (recurrence_failure_keeps_task (demoEnv none) cronReq demoWorld 7 _ _ _ _ _
        rfl rfl rfl rfl).2.2.1 (by decide) { handle := 1 } _ rfl⟩⟩

/-- C10: when assembly and create succeed and the launch (`spider.Run`) fails,
`CreateTask` has made exactly two calls, the create and the launch: it starts no
listener, attempts no registration and makes no further task-store call, so the
record it created, whose status is Running, is left as created; the answer is the
bare status 500, without a summary. -/
theorem launch_failure_leaves_record {σ : Type} (env : Env σ) (req0 : CreateTaskReq)
    (w : σ) (intID : Int) (rule : spider.TaskRule) (cfg : spider.TaskConfig)
    (task1 : model.Task) (w1 : σ) (e : Err) (w2 : σ)
    (hid : strconv.Atoi req0.OutputSysDBID = .ok intID)
    (he : getTaskRuleAndConfig env (setOutputSysDBID req0 intID) w = (some rule, some cfg, none))
    (hc : env.taskCreate (runningTask env (setOutputSysDBID req0 intID)) w = (.ok task1, w1))
    (hr : env.spiderRun (spider.NewTask rule cfg) w1 = (some e, w2)) :
    (CreateTask env (.ok req0) w).events =
      [Event.taskCreate (runningTask env (setOutputSysDBID req0 intID)),
        Event.spiderRun (spider.NewTask rule cfg)] ∧
    (CreateTask env (.ok req0) w).response = .data http.StatusInternalServerError ∧
    (runningTask env (setOutputSysDBID req0 intID)).Status = env.TaskStatusRunning ∧
    (CreateTask env (.ok req0) w).world = w2 := by
  rw [createTask_launch_failed env req0 w intID rule cfg task1 w1 e w2 hid he hc hr]
  exact ⟨rfl, rfl, rfl, rfl⟩

/-- Witness for C10: a request the engine refuses, which also has a recurrence
spec. -/
theorem launch_failure_leaves_record_witness :
    ∃ spiderTask,
      (CreateTask (demoEnv none) (.ok rejectedReq) demoWorld).events =
        [Event.taskCreate (runningTask (demoEnv none) (setOutputSysDBID rejectedReq 7)),
          Event.spiderRun spiderTask] ∧
      (CreateTask (demoEnv none) (.ok rejectedReq) demoWorld).response = .data 500 :=
  ⟨_, (launch_failure_leaves_record (demoEnv none) rejectedReq demoWorld 7 _ _ _ _
      "launch rejected" _ rfl rfl rfl rfl).1,
    (launch_failure_leaves_record (demoEnv none) rejectedReq demoWorld 7 _ _ _ _
      "launch rejected" _ rfl rfl rfl rfl).2.1⟩

/-! ## The status listener: claims C7, C8 -/

theorem receive_status {σ : Type} (env : Env σ) (task : model.Task)
    (status : common.TaskStatus) : (receive env task status).Status = status := by
  unfold receive
  dsimp only
  split <;> rfl

theorem receive_counts {σ : Type} (env : Env σ) (task : model.Task)
    (status : common.TaskStatus) :
    (receive env task status).Counts =
      if status = env.TaskStatusCompleted then wrapInt64 (task.Counts + 1) else task.Counts := by
  unfold receive
  dsimp only
  split <;> rfl

theorem listener_cons_ok {σ : Type} (env : Env σ) (task : model.Task)
    (status : common.TaskStatus) (rest : List common.TaskStatus) (w w1 : σ)
    (h : env.taskUpdate (receive env task status)
      [model.TaskDBSchema.Status, model.TaskDBSchema.Counts] w = (none, w1)) :
    listener env task (status :: rest) w =
      { listener env (receive env task status) rest w1 with
        updates :=
          { task := receive env task status,
            fields := [model.TaskDBSchema.Status, model.TaskDBSchema.Counts],
            err := none } :: (listener env (receive env task status) rest w1).updates } := by
  simp [listener, h]

theorem listener_cons_fail {σ : Type} (env : Env σ) (task : model.Task)
    (status : common.TaskStatus) (rest : List common.TaskStatus) (w w1 : σ) (err : Err)
    (h : env.taskUpdate (receive env task status)
      [model.TaskDBSchema.Status, model.TaskDBSchema.Counts] w = (some err, w1)) :
    listener env task (status :: rest) w =
      { task := receive env task status, world := w1,
        updates :=
          [{ task := receive env task status,
             fields := [model.TaskDBSchema.Status, model.TaskDBSchema.Counts],
             err := some err }],
        returned := true } := by
  simp [listener, h]

/-- A listener that is still waiting after `a ++ b` was still waiting after `a`. -/
theorem listener_waiting_of_append {σ : Type} (env : Env σ) (a b : List common.TaskStatus) :
    ∀ (task : model.Task) (w : σ),
      (listener env task (a ++ b) w).returned = false →
      (listener env task a w).returned = false := by
  induction a with
  | nil => intro task w _; rfl
  | cons s rest ih =>
    intro task w h
    rcases hu : env.taskUpdate (receive env task s)
      [model.TaskDBSchema.Status, model.TaskDBSchema.Counts] w with ⟨err, w1⟩
    rcases err with _ | err
    · rw [List.cons_append, listener_cons_ok env task s _ w w1 hu] at h
      rw [listener_cons_ok env task s _ w w1 hu]
      exact ih _ _ h
    · rw [List.cons_append, listener_cons_fail env task s _ w w1 err hu] at h
      cases h

/-- A listener that has returned ignores every later signal. -/
theorem listener_returned_append {σ : Type} (env : Env σ) (a b : List common.TaskStatus) :
    ∀ (task : model.Task) (w : σ),
      (listener env task a w).returned = true →
      listener env task (a ++ b) w = listener env task a w := by
  induction a with
  | nil => intro task w h; cases h
  | cons s rest ih =>
    intro task w h
    rcases hu : env.taskUpdate (receive env task s)
      [model.TaskDBSchema.Status, model.TaskDBSchema.Counts] w with ⟨err, w1⟩
    rcases err with _ | err
    · rw [listener_cons_ok env task s _ w w1 hu] at h
      rw [List.cons_append, listener_cons_ok env task s _ w w1 hu,
        listener_cons_ok env task s _ w w1 hu, ih _ _ h]
    · rw [List.cons_append, listener_cons_fail env task s _ w w1 err hu,
        listener_cons_fail env task s _ w w1 err hu]

/-- While every update succeeds, the listener issues one update per signal and the
persisted status and count are those of the in-memory task. -/
theorem listener_waiting_run {σ : Type} (env : Env σ) (signals : List common.TaskStatus) :
    ∀ (task created : model.Task) (w : σ),
      (listener env task signals w).returned = false →
      created.Status = task.Status → created.Counts = task.Counts →
      (listener env task signals w).updates.length = signals.length ∧
      (persisted created (listener env task signals w).updates).Status =
        (signals.foldl (receive env) task).Status ∧
      (persisted created (listener env task signals w).updates).Counts =
        (signals.foldl (receive env) task).Counts := by
  induction signals with
  | nil =>
    intro task created w _ hs hc
    exact ⟨rfl, hs, hc⟩
  | cons s rest ih =>
    intro task created w h hs hc
    rcases hu : env.taskUpdate (receive env task s)
      [model.TaskDBSchema.Status, model.TaskDBSchema.Counts] w with ⟨err, w1⟩
    rcases err with _ | err
    · rw [listener_cons_ok env task s _ w w1 hu] at h ⊢
      have := ih (receive env task s)
        (applyUpdate created
          { task := receive env task s,
            fields := [model.TaskDBSchema.Status, model.TaskDBSchema.Counts],
            err := none }) w1 h (by simp [applyUpdate]) (by simp [applyUpdate])
      simpa [persisted] using this
    · rw [listener_cons_fail env task s _ w w1 err hu] at h
      cases h

theorem foldl_receive_counts {σ : Type} (env : Env σ) (signals : List common.TaskStatus) :
    ∀ (task : model.Task), - 2 ^ 63 ≤ task.Counts →
      task.Counts + completedCount env signals < 2 ^ 63 →
      (signals.foldl (receive env) task).Counts = task.Counts + completedCount env signals := by
  induction signals with
  | nil => intro task _ _; simp [completedCount]
  | cons s rest ih =>
    intro task hlo hhi
    simp only [completedCount, List.count_cons, beq_iff_eq] at hhi ⊢
    rw [List.foldl_cons]
    by_cases hs : s = env.TaskStatusCompleted
    · simp only [hs, if_true] at hhi ⊢
      have hcount : (receive env task env.TaskStatusCompleted).Counts = task.Counts + 1 := by
        rw [receive_counts, if_pos rfl]
        exact wrapInt64_of_range _ (by omega) (by omega)
      have := ih (receive env task env.TaskStatusCompleted) (by omega)
        (by simp only [completedCount]; omega)
      rw [this, hcount]
      simp only [completedCount]
      push_cast
      ring
    · simp only [hs, if_false] at hhi ⊢
      have hcount : (receive env task s).Counts = task.Counts := by
        rw [receive_counts, if_neg hs]
      have := ih (receive env task s) (by omega) (by simp only [completedCount]; omega)
      rw [this, hcount]
      simp [completedCount]

theorem foldl_receive_status {σ : Type} (env : Env σ) (signals : List common.TaskStatus) :
    ∀ (task : model.Task) (k : Nat), 0 < k → k ≤ signals.length →
      signals[k - 1]? = some ((signals.take k).foldl (receive env) task).Status := by
  induction signals with
  | nil => intro task k hk hle; simp at hle; omega
  | cons s rest ih =>
    intro task k hk hle
    obtain ⟨j, rfl⟩ : ∃ j, k = j + 1 := ⟨k - 1, by omega⟩
    rcases Nat.eq_zero_or_pos j with rfl | hj
    · simp [receive_status]
    · have := ih (receive env task s) j hj (by simpa using hle)
      obtain ⟨i, rfl⟩ : ∃ i, j = i + 1 := ⟨j - 1, by omega⟩
      simpa using this

/-- C7, counterexample: a request whose embedded task carries `Counts = 5` is
created and its listener starts with that count; after the single signal
Completed, with the update succeeding, the persisted count is 6 although one
signal was Completed. -/
theorem persisted_count_starts_at_request_count :
    countsReq.Task.Counts = 5 ∧
    Event.goListener countsTask ∈
      (CreateTask (demoEnv none) (.ok countsReq) demoWorld).events ∧
    (listener (demoEnv none) countsTask [(demoEnv none).TaskStatusCompleted]
      (CreateTask (demoEnv none) (.ok countsReq) demoWorld).world).returned = false ∧
    (persisted countsTask
      (listener (demoEnv none) countsTask [(demoEnv none).TaskStatusCompleted]
        (CreateTask (demoEnv none) (.ok countsReq) demoWorld).world).updates).Counts = 6 ∧
    completedCount (demoEnv none) [(demoEnv none).TaskStatusCompleted] = 1 := by
  refine ⟨by decide, by decide, by decide, by decide, by decide⟩

/-- C7, amended: for a listener started on a task whose count is `c0`, if every
store update succeeds and `c0` plus the number of Completed signals stays in the
`int64` range, then after each prefix S1..Sk the listener has issued `k` updates,
the persisted status is Sk, the persisted count is `c0` plus the number of
Completed signals among S1..Sk, and the persisted count after a shorter prefix
is never larger. -/
theorem persisted_count_tracks_completed {σ : Type} (env : Env σ) (task : model.Task)
    (signals : List common.TaskStatus) (w : σ) (k : Nat)
    (hsucc : (listener env task signals w).returned = false)
    (hk : k ≤ signals.length)
    (hlo : - 2 ^ 63 ≤ task.Counts)
    (hhi : task.Counts + completedCount env signals < 2 ^ 63) :
    (listener env task (signals.take k) w).updates.length = k ∧
    (0 < k →
      signals[k - 1]? =
        some (persisted task (listener env task (signals.take k) w).updates).Status) ∧
    (persisted task (listener env task (signals.take k) w).updates).Counts =
      task.Counts + completedCount env (signals.take k) ∧
    (∀ j, j ≤ k →
      (persisted task (listener env task (signals.take j) w).updates).Counts ≤
        (persisted task (listener env task (signals.take k) w).updates).Counts) := by
  have hwait : ∀ i, (listener env task (signals.take i) w).returned = false := by
    intro i
    apply listener_waiting_of_append env (signals.take i) (signals.drop i)
    rw [List.take_append_drop]
    exact hsucc
  have hmono : ∀ i j, i ≤ j →
      completedCount env (signals.take i) ≤ completedCount env (signals.take j) := by
    intro i j hij
    exact (List.take_sublist_take_left signals hij).count_le _
  have hall : ∀ i, completedCount env (signals.take i) ≤ completedCount env signals := by
    intro i
    exact (List.take_sublist i signals).count_le _
  have hcounts : ∀ i,
      (persisted task (listener env task (signals.take i) w).updates).Counts =
        task.Counts + completedCount env (signals.take i) := by
    intro i
    rw [(listener_waiting_run env (signals.take i) task task w (hwait i) rfl rfl).2.2]
    exact foldl_receive_counts env _ task hlo (by have := hall i; omega)
  refine ⟨?_, ?_, hcounts k, ?_⟩
  · rw [(listener_waiting_run env (signals.take k) task task w (hwait k) rfl rfl).1]
    simp [hk]
  · intro hpos
    rw [(listener_waiting_run env (signals.take k) task task w (hwait k) rfl rfl).2.1]
    exact foldl_receive_status env signals task k hpos hk
  · intro j hj
    rw [hcounts j, hcounts k]
    have := hmono j k hj
    omega

/-- Witness for C7 (amended): the task with count 5 and the signals Completed,
Running, Completed: after all three the persisted count is 7 and the status is
Completed. -/
theorem persisted_count_tracks_completed_witness :
    (persisted countsTask (listener (demoEnv none) countsTask [5, 1, 5] demoWorld).updates).Counts
      = 5 + 2 ∧
    (persisted countsTask (listener (demoEnv none) countsTask [5, 1, 5] demoWorld).updates).Status
      = 5 :=
  ⟨(persisted_count_tracks_completed (demoEnv none) countsTask [5, 1, 5] demoWorld 3
      (by decide) (by decide) (by decide) (by decide)).2.2.1,
    (Option.some.inj ((persisted_count_tracks_completed (demoEnv none) countsTask [5, 1, 5]
      demoWorld 3 (by decide) (by decide) (by decide) (by decide)).2.1 (by decide))).symm⟩

/-- C8: if the update for the signal Sk is the first to fail (the updates for
S1..S(k-1) succeed and the update for Sk returns an error), the listener returns
after Sk: it has issued exactly `k` update calls, one per signal S1..Sk and in
their order, only the last of them failed, and whatever signals follow Sk
produce no further update call. -/
theorem listener_stops_at_first_failure {σ : Type} (env : Env σ) (task : model.Task)
    (signals : List common.TaskStatus) (w : σ) (k : Nat) (s : common.TaskStatus)
    (hk : 0 < k)
    (hs : signals[k - 1]? = some s)
    (hprev : (listener env task (signals.take (k - 1)) w).returned = false)
    (hfail : (env.taskUpdate (receive env (listener env task (signals.take (k - 1)) w).task s)
      [model.TaskDBSchema.Status, model.TaskDBSchema.Counts]
      (listener env task (signals.take (k - 1)) w).world).1 ≠ none) :
    (listener env task signals w).returned = true ∧
    (listener env task signals w).updates.length = k ∧
    (listener env task signals w).updates.map (fun u => u.task.Status) = signals.take k ∧
    ((listener env task signals w).updates.map (fun u => u.err.isSome)) =
      List.replicate (k - 1) false ++ [true] ∧
    (∀ later, (listener env task (signals.take k ++ later) w).updates =
      (listener env task signals w).updates) := by
  have key : ∀ (signals : List common.TaskStatus) (task : model.Task) (w : σ) (k : Nat),
      signals[k]? = some s →
      (listener env task (signals.take k) w).returned = false →
      (env.taskUpdate (receive env (listener env task (signals.take k) w).task s)
        [model.TaskDBSchema.Status, model.TaskDBSchema.Counts]
        (listener env task (signals.take k) w).world).1 ≠ none →
      (listener env task (signals.take (k + 1)) w).returned = true ∧
      (listener env task (signals.take (k + 1)) w).updates.length = k + 1 ∧
      (listener env task (signals.take (k + 1)) w).updates.map (fun u => u.task.Status) =
        signals.take (k + 1) ∧
      ((listener env task (signals.take (k + 1)) w).updates.map (fun u => u.err.isSome)) =
        List.replicate k false ++ [true] := by
    intro signals
    induction signals with
    | nil => intro task w k hs; simp at hs
    | cons x rest ih =>
      intro task w k hs hprev hfail
      rcases hu : env.taskUpdate (receive env task x)
        [model.TaskDBSchema.Status, model.TaskDBSchema.Counts] w with ⟨err, w1⟩
      cases k with
      | zero =>
        simp only [List.getElem?_cons_zero, Option.some.injEq] at hs
        subst hs
        simp only [List.take_zero, listener] at hfail
        rw [hu] at hfail
        rcases err with _ | err
        · simp at hfail
        · rw [List.take_succ_cons, List.take_zero,
            listener_cons_fail env task x _ w w1 err hu]
          simp [receive_status]
      | succ j =>
        simp only [List.getElem?_cons_succ] at hs
        rw [List.take_succ_cons] at hprev hfail
        rcases err with _ | err
        · rw [listener_cons_ok env task x _ w w1 hu] at hprev hfail
          have := ih (receive env task x) w1 j hs hprev hfail
          rw [List.take_succ_cons, listener_cons_ok env task x _ w w1 hu]
          obtain ⟨h1, h2, h3, h4⟩ := this
          refine ⟨h1, by simp [h2], ?_, ?_⟩
          · simp only [List.map_cons, h3, receive_status]
          · simp only [List.map_cons, h4, Option.isSome_none, List.replicate_succ,
              List.cons_append]
        · rw [listener_cons_fail env task x _ w w1 err hu] at hprev
          cases hprev
  obtain ⟨k, rfl⟩ : ∃ j, k = j + 1 := ⟨k - 1, by omega⟩
  simp only [Nat.add_sub_cancel] at hs hprev hfail ⊢
  obtain ⟨h1, h2, h3, h4⟩ := key signals task w k hs hprev hfail
  have hstop := listener_returned_append env (signals.take (k + 1)) (signals.drop (k + 1))
    task w h1
  rw [List.take_append_drop] at hstop
  rw [hstop]
  refine ⟨h1, h2, h3, h4, ?_⟩
  intro later
  rw [listener_returned_append env (signals.take (k + 1)) later task w h1]

/-- Witness for C8: the store fails on its second update call; of the signals
Completed, Running, Completed only the first two produce an update call. -/
theorem listener_stops_at_first_failure_witness :
    (listener (demoEnv (some 1)) demoTask [5, 1, 5] demoWorld).returned = true ∧
    (listener (demoEnv (some 1)) demoTask [5, 1, 5] demoWorld).updates.length = 2 :=
  ⟨(listener_stops_at_first_failure (demoEnv (some 1)) demoTask [5, 1, 5] demoWorld 2 1
      (by decide) (by decide) (by decide) (by decide)).1,
    (listener_stops_at_first_failure (demoEnv (some 1)) demoTask [5, 1, 5] demoWorld 2 1
      (by decide) (by decide) (by decide) (by decide)).2.1⟩

end Gospider

